import Mathlib

/-!
Shallow embedding of the overlay-reconciliation logic of
`src/software/gpsd/gpsd.py` (functions `find_dtoverlay_config` and
`control_uart`), together with proofs of the specification claims.

Modelling conventions:
* A Balena `ConfigVariable` dict is a structure with the three fields the
  code reads: `name`, `id` (an integer in the API, stringified by the code
  with `str`), `value`.
* Python `set` of strings is modelled as `Finset String`.  Python set
  iteration order is unspecified; the encoder enumerates the set in sorted
  order.  Every property proved here is independent of the enumeration
  order.
* `json.loads("[" ++ v ++ "]")` is modelled by `parseItems`, a parser for
  the fragment the program actually exchanges: a non-empty comma-separated
  list of double-quoted strings containing no `"`and no backslash, with no
  surrounding whitespace.  Outside this fragment (escapes, non-string JSON
  elements, whitespace) the model reports a decode error where CPython may
  succeed; no claim exercises those inputs.
* Exceptions are explicit: `Except Unit` for a `json.loads` failure inside
  `find_dtoverlay_config`, and the `Outcome` type for how `control_uart`
  terminates.  In particular Python raises `TypeError` on
  `None | {UART_OVERLAY}` and `None - {UART_OVERLAY}` when neither scope
  has a dt-overlay variable; the model returns `Outcome.typeError` there.
* The remote calls made by `control_uart` (the method and the receiver
  object, `device_config` vs `app_config`) are recorded in an ordered
  trace of `RemoteCall`, returned together with the `Outcome`.
-/

/-- The dt overlay written by the program: `UART_OVERLAY = "disable-bt"`. -/
def UART_OVERLAY : String := "disable-bt"

/-- The fields of a Balena config-variable dict that the code reads. -/
structure ConfigVariable where
  name : String
  id : Nat
  value : String
deriving DecidableEq, Repr

/-- Python `variable["value"].startswith('"')`: first character is a double
quote (`False` on the empty string). -/
def startsWithQuote (v : String) : Bool :=
  match v.data with
  | [] => false
  | c :: _ => c = '"'

/-- Python `variable["value"].endswith('"')`: last character is a double
quote (`False` on the empty string). -/
def endsWithQuote (v : String) : Bool :=
  match v.data.getLast? with
  | none => false
  | some c => c = '"'

/-- Reads the body of a JSON string up to the closing quote, for strings
containing no escape.  Returns the token characters and the remaining
input; `none` models a `json.JSONDecodeError` (unterminated string) or an
input outside the escape-free fragment (a backslash). -/
def parseTokenChars : List Char → Option (List Char × List Char)
  | [] => none
  | c :: rest =>
    if c = '"' then some ([], rest)
    else if c = '\\' then none
    else (parseTokenChars rest).map (fun p => (c :: p.1, p.2))

/-- Fuel-indexed loop of `parseItems`: one unit of fuel per list element.
The fuel only serves termination; `parseItems` passes more fuel than the
input length, which is always enough since every element consumes at
least one character. -/
def parseItemsFuel : Nat → List Char → Option (List String)
  | 0, _ => none
  | fuel + 1, cs =>
    match cs with
    | [] => none
    | c :: rest =>
      if c = '"' then
        match parseTokenChars rest with
        | none => none
        | some (tok, rest2) =>
          match rest2 with
          | [] => some [String.mk tok]
          | c2 :: rest3 =>
            if c2 = ',' then
              (parseItemsFuel fuel rest3).map (fun ts => String.mk tok :: ts)
            else none
      else none

/-- Models `json.loads("[" ++ v ++ "]")` on the list-of-escape-free-strings
fragment: a non-empty comma-separated sequence of double-quoted tokens,
consumed entirely.  `none` models a raised `json.JSONDecodeError` (and,
conservatively, inputs outside the fragment). -/
def parseItems (cs : List Char) : Option (List String) :=
  parseItemsFuel (cs.length + 1) cs

/-- Decoding of a config-variable raw value (lines 104-107 of the source):
if the value starts and ends with a double quote it is parsed as a JSON
list body and turned into a set; otherwise the whole raw value is a
single-element set.  `none` models a raised decode exception. -/
def decodeValue (v : String) : Option (Finset String) :=
  if startsWithQuote v && endsWithQuote v then
    (parseItems v.data).map List.toFinset
  else
    some {v}

instance {ε α : Type} [DecidableEq ε] [DecidableEq α] : DecidableEq (Except ε α) := fun x y =>
  match x, y with
  | Except.error a, Except.error b =>
    if h : a = b then isTrue (by rw [h]) else isFalse (by intro hh; cases hh; exact h rfl)
  | Except.error _, Except.ok _ => isFalse (by intro h; cases h)
  | Except.ok _, Except.error _ => isFalse (by intro h; cases h)
  | Except.ok a, Except.ok b =>
    if h : a = b then isTrue (by rw [h]) else isFalse (by intro hh; cases hh; exact h rfl)

/-- The two recognized names for the dt-overlay variable. -/
def dtOverlayNames : List String :=
  ["BALENA_HOST_CONFIG_dtoverlay", "RESIN_HOST_CONFIG_dtoverlay"]

/-- The scan loop of `find_dtoverlay_config`: every matching variable is
decoded in order and overwrites the accumulator, so the last match wins;
a decode failure raises (propagated as `Except.error`). -/
def findAux (acc : Option (Finset String) × Option String) :
    List ConfigVariable → Except Unit (Option (Finset String) × Option String)
  | [] => Except.ok acc
  | v :: rest =>
    if v.name ∈ dtOverlayNames then
      match decodeValue v.value with
      | none => Except.error ()
      | some s => findAux (some s, some (toString v.id)) rest
    else
      findAux acc rest

/-- `find_dtoverlay_config(variable_list)` (lines 92-109): value and id of
the last `BALENA_HOST_CONFIG_dtoverlay` / `RESIN_HOST_CONFIG_dtoverlay`
entry, `(None, None)` if none exists. -/
def find_dtoverlay_config (variable_list : List ConfigVariable) :
    Except Unit (Option (Finset String) × Option String) :=
  findAux (none, none) variable_list

/-- Python `','.join(l)`. -/
def joinComma : List String → String
  | [] => ""
  | t :: rest =>
    match rest with
    | [] => t
    | _ :: _ => t ++ "," ++ joinComma rest

/-- The f-string `f'"{dt_overlay}"'`. -/
def quoteTok (t : String) : String := "\"" ++ t ++ "\""

/-- Line 158: `','.join([f'"{o}"' for o in new_dt_overlay if o])` — drop
falsy (empty) tokens, double-quote each, comma-join.  The set is
enumerated in sorted order (Python iteration order is unspecified). -/
def encodeOverlaySet (s : Finset String) : String :=
  joinComma (((s.sort (· ≤ ·)).filter (fun t => t != "")).map quoteTok)

/-- Which SDK object a remote call was made on:
`balena.models.config_variable.device_config_variable` or
`...application_config_variable`. -/
inductive Scope where
  | device
  | application
deriving DecidableEq, Repr

/-- A remote call of the configuration client, as issued by
`control_uart`: `get_all`, `update(variable_id, value)` or
`create(uuid, name, value)` on one of the two scope objects. -/
inductive RemoteCall where
  | getAll (scope : Scope)
  | update (scope : Scope) (varId : Option String) (value : String)
  | create (scope : Scope) (ownerId : String) (name : String) (value : String)
deriving DecidableEq, Repr

/-- How an invocation of `control_uart` terminates. -/
inductive Outcome where
  /-- The `ValueError` of line 122: unrecognized control parameter. -/
  | invalidControl
  /-- A `json.JSONDecodeError` escaping from `find_dtoverlay_config`. -/
  | decodeError
  /-- The `TypeError` raised at line 150/152 when `current_dt_overlays`
  is `None`: Python does not support `None | set` or `None - set`. -/
  | typeError
  /-- Early return at line 156: config does not need to be updated. -/
  | unchanged
  /-- Normal completion after a write (line 168). -/
  | done
deriving DecidableEq, Repr

/-- Python `control.lower()` as a character map (ASCII case folding; the
values reaching it are only `"enable"` and `"disable"`, on which every
definition of lowercasing agrees). -/
def lowerStr (s : String) : String := String.mk (s.data.map Char.toLower)

/-- The set computed at lines 149-152: add `UART_OVERLAY` on enable,
remove it on disable (`control.lower()` is applied as in the source). -/
def new_overlay (control : String) (cur : Finset String) : Finset String :=
  if lowerStr control = "enable" then cur ∪ {UART_OVERLAY} else cur \ {UART_OVERLAY}

/-- `control_uart(control)` (lines 111-168), with the remote reads
dependency-injected: `deviceVars` and `appVars` are what the two
`get_all` calls return, and `device_uuid` is `BALENA_DEVICE_UUID`.
Returns the ordered trace of remote configuration calls made, and the
outcome.  The control check of line 121 precedes every remote call;
each `find_dtoverlay_config` runs right after its `get_all`, so a decode
failure on the device list happens before the application read. -/
def control_uart (control : String) (device_uuid : String)
    (deviceVars appVars : List ConfigVariable) : List RemoteCall × Outcome :=
  if control ∉ ["enable", "disable"] then
    ([], Outcome.invalidControl)
  else
    match find_dtoverlay_config deviceVars with
    | Except.error _ => ([RemoteCall.getAll Scope.device], Outcome.decodeError)
    | Except.ok (device_dt_overlays, dt_overlay_var_id) =>
      match find_dtoverlay_config appVars with
      | Except.error _ =>
        ([RemoteCall.getAll Scope.device, RemoteCall.getAll Scope.application],
          Outcome.decodeError)
      | Except.ok (app_dt_overlays, _) =>
        let reads := [RemoteCall.getAll Scope.device, RemoteCall.getAll Scope.application]
        let device_overlay_exists := device_dt_overlays.isSome
        let current_dt_overlays :=
          if device_dt_overlays.isSome then device_dt_overlays else app_dt_overlays
        match current_dt_overlays with
        | none => (reads, Outcome.typeError)
        | some cur =>
          let new_dt_overlay := new_overlay control cur
          if new_dt_overlay = cur then
            (reads, Outcome.unchanged)
          else
            let dt_overlay_string := encodeOverlaySet new_dt_overlay
            if device_overlay_exists then
              (reads ++ [RemoteCall.update Scope.device dt_overlay_var_id dt_overlay_string],
                Outcome.done)
            else
              (reads ++ [RemoteCall.create Scope.device device_uuid
                  "BALENA_HOST_CONFIG_dtoverlay" dt_overlay_string],
                Outcome.done)

/-- The effective current set of lines 140-147: device-level set if
present, else application-level set, else `None`; an `Except.error`
models the decode exception propagating out of either scan. -/
def effective_current (deviceVars appVars : List ConfigVariable) :
    Except Unit (Option (Finset String)) :=
  match find_dtoverlay_config deviceVars with
  | Except.error e => Except.error e
  | Except.ok (device_dt_overlays, _) =>
    match find_dtoverlay_config appVars with
    | Except.error e => Except.error e
    | Except.ok (app_dt_overlays, _) =>
      Except.ok (if device_dt_overlays.isSome then device_dt_overlays else app_dt_overlays)

/-- An "alphanumeric-hyphen token": non-empty, every character a letter, a
digit or a hyphen. -/
def goodToken (t : String) : Bool :=
  t != "" && t.data.all (fun c => c.isAlphanum || c = '-')

/-- Every write call (update or create) in a trace targets the
device-level configuration object. -/
def writesOnlyDevice (tr : List RemoteCall) : Bool :=
  tr.all (fun c =>
    match c with
    | RemoteCall.update sc _ _ => sc = Scope.device
    | RemoteCall.create sc _ _ _ => sc = Scope.device
    | RemoteCall.getAll _ => true)

/-! ### Helper lemmas about the encoder and the parser -/

theorem quoteTok_data (t : String) : (quoteTok t).data = '"' :: (t.data ++ ['"']) := by
  have h1 : ("\"" : String).data = ['"'] := rfl
  simp [quoteTok, String.data_append, h1]

theorem joinComma_map_one (t : String) :
    (joinComma ([t].map quoteTok)).data = '"' :: (t.data ++ ['"']) := by
  simp [joinComma, quoteTok_data]

theorem joinComma_map_cons (t u : String) (l : List String) :
    (joinComma ((t :: u :: l).map quoteTok)).data =
      '"' :: (t.data ++ '"' :: ',' :: (joinComma ((u :: l).map quoteTok)).data) := by
  have h1 : ("," : String).data = [','] := rfl
  simp [List.map_cons, joinComma, String.data_append, quoteTok_data, h1]

theorem parseTokenChars_append (l rest : List Char)
    (hl : ∀ c ∈ l, c ≠ '"' ∧ c ≠ '\\') :
    parseTokenChars (l ++ '"' :: rest) = some (l, rest) := by
  induction l with
  | nil => simp [parseTokenChars]
  | cons c l ih =>
    have hc := hl c (List.mem_cons_self c l)
    have ht : ∀ x ∈ l, x ≠ '"' ∧ x ≠ '\\' := fun x hx => hl x (List.mem_cons_of_mem c hx)
    simp [parseTokenChars, hc.1, hc.2, ih ht]

theorem parseItemsFuel_join (ts : List String) :
    ∀ fuel : Nat, ts ≠ [] →
    (∀ t ∈ ts, ∀ c ∈ t.data, c ≠ '"' ∧ c ≠ '\\') →
    (joinComma (ts.map quoteTok)).data.length < fuel →
    parseItemsFuel fuel (joinComma (ts.map quoteTok)).data = some ts := by
  induction ts with
  | nil => intro fuel h; exact absurd rfl h
  | cons t ts ih =>
    intro fuel _ hgood hlen
    cases ts with
    | nil =>
      rw [joinComma_map_one] at hlen ⊢
      cases fuel with
      | zero => omega
      | succ f =>
        have ht : ∀ c ∈ t.data, c ≠ '"' ∧ c ≠ '\\' := hgood t (by simp)
        simp [parseItemsFuel, parseTokenChars_append t.data [] ht]
    | cons u ts2 =>
      rw [joinComma_map_cons] at hlen ⊢
      cases fuel with
      | zero => omega
      | succ f =>
        have ht : ∀ c ∈ t.data, c ≠ '"' ∧ c ≠ '\\' := hgood t (by simp)
        have hgood2 : ∀ x ∈ u :: ts2, ∀ c ∈ x.data, c ≠ '"' ∧ c ≠ '\\' :=
          fun x hx => hgood x (by simp [hx])
        have hlen2 : (joinComma ((u :: ts2).map quoteTok)).data.length < f := by
          simp only [List.length_cons, List.length_append] at hlen
          omega
        have hpt := parseTokenChars_append t.data
          (',' :: (joinComma ((u :: ts2).map quoteTok)).data) ht
        have hih := ih f (by simp) hgood2 hlen2
        simp only [parseItemsFuel]
        rw [hpt]
        simp
        simpa using hih

theorem joinComma_map_getLast (t : String) (ts : List String) :
    (joinComma ((t :: ts).map quoteTok)).data.getLast? = some '"' := by
  induction ts generalizing t with
  | nil =>
    rw [joinComma_map_one,
      show ('"' :: (t.data ++ ['"'])) = ('"' :: t.data) ++ ['"'] by simp]
    exact List.getLast?_concat _
  | cons u l ih =>
    rw [joinComma_map_cons,
      show '"' :: (t.data ++ '"' :: ',' :: (joinComma ((u :: l).map quoteTok)).data)
        = ('"' :: t.data ++ ['"', ',']) ++ (joinComma ((u :: l).map quoteTok)).data by simp]
    rw [List.getLast?_append, ih u]
    rfl

theorem good_no_quote (t : String) (h : goodToken t = true) :
    ∀ c ∈ t.data, c ≠ '"' ∧ c ≠ '\\' := by
  intro c hc
  simp only [goodToken, Bool.and_eq_true, List.all_eq_true] at h
  have h2 := h.2 c hc
  simp only [Bool.or_eq_true, decide_eq_true_eq] at h2
  rcases h2 with h2 | h2
  · refine ⟨?_, ?_⟩ <;> intro he <;> rw [he] at h2 <;> exact absurd h2 (by decide)
  · rw [h2]; exact ⟨by decide, by decide⟩

theorem decode_encode_of_good (S : Finset String) (hne : S.Nonempty)
    (hS : ∀ t ∈ S, goodToken t) :
    decodeValue (encodeOverlaySet S) = some S := by
  have hmem : ∀ t ∈ S.sort (· ≤ ·), goodToken t :=
    fun t ht => hS t ((Finset.mem_sort (α := String) (· ≤ ·)).mp ht)
  have hfil : (S.sort (· ≤ ·)).filter (fun t => t != "") = S.sort (· ≤ ·) := by
    apply List.filter_eq_self.mpr
    intro a ha
    have hga := hmem a ha
    simp only [goodToken, Bool.and_eq_true] at hga
    exact hga.1
  have htsne : S.sort (· ≤ ·) ≠ [] := by
    intro h
    have hcard : S.card = 0 := by
      rw [← Finset.length_sort (α := String) (· ≤ ·), h]
      rfl
    exact absurd (Finset.card_eq_zero.mp hcard) (Finset.nonempty_iff_ne_empty.mp hne)
  have henc : encodeOverlaySet S = joinComma ((S.sort (· ≤ ·)).map quoteTok) := by
    rw [encodeOverlaySet, hfil]
  have hgood2 : ∀ x ∈ S.sort (· ≤ ·), ∀ c ∈ x.data, c ≠ '"' ∧ c ≠ '\\' :=
    fun x hx => good_no_quote x (hmem x hx)
  obtain ⟨t, ts2, hcons⟩ := List.exists_cons_of_ne_nil htsne
  have hstart : startsWithQuote (joinComma ((S.sort (· ≤ ·)).map quoteTok)) = true := by
    rw [hcons]
    cases ts2 with
    | nil => rw [startsWithQuote, joinComma_map_one]; rfl
    | cons u l => rw [startsWithQuote, joinComma_map_cons]; rfl
  have hend : endsWithQuote (joinComma ((S.sort (· ≤ ·)).map quoteTok)) = true := by
    rw [hcons, endsWithQuote, joinComma_map_getLast]
    rfl
  have hparse : parseItems (joinComma ((S.sort (· ≤ ·)).map quoteTok)).data
      = some (S.sort (· ≤ ·)) := by
    rw [parseItems]
    exact parseItemsFuel_join _ _ htsne hgood2 (Nat.lt_succ_self _)
  rw [henc, decodeValue, if_pos (by rw [hstart, hend]; rfl), hparse]
  simp [Finset.sort_toFinset]

/-! ### Helper lemmas about the variable scan -/

theorem findAux_no_match (l : List ConfigVariable)
    (h : ∀ v ∈ l, v.name ∉ dtOverlayNames) :
    ∀ acc, findAux acc l = Except.ok acc := by
  induction l with
  | nil => intro acc; rfl
  | cons v rest ih =>
    intro acc
    have hv := h v (List.mem_cons_self v rest)
    simp [findAux, hv, ih (fun x hx => h x (List.mem_cons_of_mem v hx))]

theorem findAux_last (l : List ConfigVariable) :
    ∀ (m : ConfigVariable) (s : Finset String),
    (l.filter (fun v => decide (v.name ∈ dtOverlayNames))).getLast? = some m →
    (∀ v ∈ l, v.name ∈ dtOverlayNames → (decodeValue v.value).isSome) →
    decodeValue m.value = some s →
    ∀ acc, findAux acc l = Except.ok (some s, some (toString m.id)) := by
  induction l with
  | nil => intro m s hlast; simp at hlast
  | cons v rest ih =>
    intro m s hlast hdec hm acc
    by_cases hv : v.name ∈ dtOverlayNames
    · have hsome := hdec v (List.mem_cons_self v rest) hv
      obtain ⟨sv, hsv⟩ := Option.isSome_iff_exists.mp hsome
      have hfil : (v :: rest).filter (fun x => decide (x.name ∈ dtOverlayNames))
          = v :: rest.filter (fun x => decide (x.name ∈ dtOverlayNames)) := by
        simp [hv]
      rw [hfil] at hlast
      cases hrest : rest.filter (fun x => decide (x.name ∈ dtOverlayNames)) with
      | nil =>
        rw [hrest] at hlast
        simp only [List.getLast?_singleton, Option.some_inj] at hlast
        subst hlast
        have hnom : ∀ x ∈ rest, x.name ∉ dtOverlayNames := by
          intro x hx hmemx
          have hxf : x ∈ rest.filter (fun y => decide (y.name ∈ dtOverlayNames)) :=
            List.mem_filter.mpr ⟨hx, by simpa⟩
          rw [hrest] at hxf
          cases hxf
        rw [hsv] at hm
        simp only [Option.some_inj] at hm
        subst hm
        simp [findAux, hv, hsv, findAux_no_match rest hnom]
      | cons w ws =>
        rw [hrest, List.getLast?_cons_cons, ← hrest] at hlast
        have hrec := ih m s hlast (fun x hx => hdec x (List.mem_cons_of_mem v hx)) hm
        simp [findAux, hv, hsv, hrec]
    · have hfil : (v :: rest).filter (fun x => decide (x.name ∈ dtOverlayNames))
          = rest.filter (fun x => decide (x.name ∈ dtOverlayNames)) := by
        simp [hv]
      rw [hfil] at hlast
      have hrec := ih m s hlast (fun x hx => hdec x (List.mem_cons_of_mem v hx)) hm
      simp [findAux, hv, hrec]

/-! ### Helper lemmas about the reconciler -/

theorem control_uart_skip (control uuid : String) (dv av : List ConfigVariable)
    (cur : Finset String)
    (hc : control = "enable" ∨ control = "disable")
    (hcur : effective_current dv av = Except.ok (some cur))
    (hskip : new_overlay control cur = cur) :
    control_uart control uuid dv av =
      ([RemoteCall.getAll Scope.device, RemoteCall.getAll Scope.application],
        Outcome.unchanged) := by
  have hmem : control ∈ ["enable", "disable"] := by
    rcases hc with h | h <;> simp [h]
  cases hd : find_dtoverlay_config dv with
  | error e =>
    rw [effective_current, hd] at hcur
    cases hcur
  | ok p =>
    obtain ⟨d, i⟩ := p
    cases ha : find_dtoverlay_config av with
    | error e =>
      rw [effective_current, hd] at hcur
      simp only [ha] at hcur
      cases hcur
    | ok q =>
      obtain ⟨a, j⟩ := q
      rw [effective_current, hd] at hcur
      simp only [ha, Except.ok.injEq] at hcur
      rw [control_uart, if_neg (not_not_intro hmem), hd]
      simp only [ha]
      rw [hcur]
      simp [hskip]

/-! ### Claim theorems -/

/-- C1: the claim says that for control = enable with no dt-overlay
variable in either scope the reconciler treats the current set as empty,
computes the desired set containing the target token and issues a create.
The code does not: with `current_dt_overlays = None`, line 150 evaluates
`None | {UART_OVERLAY}`, which raises `TypeError` in Python, so the
invocation aborts after the two reads and no create is issued.  This
theorem evaluates the embedded code at that failing input. -/
theorem c1_enable_no_config_raises :
    control_uart "enable" "uuid0" [] [] =
      ([RemoteCall.getAll Scope.device, RemoteCall.getAll Scope.application],
        Outcome.typeError) := by
  decide

/-- C2 counterexample: the claim says that for control = disable with no
dt-overlay variable in either scope a write always occurs, creating a
device-level variable with an empty encoded value.  At the concrete input
(control = "disable", no variables in either scope) the invocation
instead ends with the `TypeError` outcome after the two reads, and in
particular does not perform the claimed create. -/
theorem c2_disable_no_config_counterexample :
    control_uart "disable" "uuid0" [] [] =
      ([RemoteCall.getAll Scope.device, RemoteCall.getAll Scope.application],
        Outcome.typeError) ∧
    control_uart "disable" "uuid0" [] [] ≠
      ([RemoteCall.getAll Scope.device, RemoteCall.getAll Scope.application,
        RemoteCall.create Scope.device "uuid0" "BALENA_HOST_CONFIG_dtoverlay" ""],
        Outcome.done) := by
  decide

/-- C2 (amended): for control = disable, when neither the device-level nor
the application-level variable sequence contains a dt-overlay variable
(effective current set is None), the skip branch never fires but no write
occurs either: the set difference on `None` raises `TypeError`, so the
invocation ends after the two reads with no variable created. -/
theorem c2_disable_no_config_raises (uuid : String) (dv av : List ConfigVariable)
    (h : effective_current dv av = Except.ok none) :
    control_uart "disable" uuid dv av =
      ([RemoteCall.getAll Scope.device, RemoteCall.getAll Scope.application],
        Outcome.typeError) := by
  cases hd : find_dtoverlay_config dv with
  | error e =>
    rw [effective_current, hd] at h
    cases h
  | ok p =>
    obtain ⟨d, i⟩ := p
    cases ha : find_dtoverlay_config av with
    | error e =>
      rw [effective_current, hd] at h
      simp only [ha] at h
      cases h
    | ok q =>
      obtain ⟨a, j⟩ := q
      rw [effective_current, hd] at h
      simp only [ha, Except.ok.injEq] at h
      rw [control_uart,
        if_neg (not_not_intro (by simp : ("disable" : String) ∈ ["enable", "disable"])), hd]
      simp only [ha]
      rw [h]

/-- C2 witness: the amended theorem applied at the concrete failing input
(no variables in either scope). -/
theorem c2_disable_no_config_raises_witness :
    effective_current [] [] = Except.ok none ∧
    control_uart "disable" "uuid1" [] [] =
      ([RemoteCall.getAll Scope.device, RemoteCall.getAll Scope.application],
        Outcome.typeError) :=
  ⟨by decide, c2_disable_no_config_raises "uuid1" [] [] (by decide)⟩

/-- C10: the encode/decode pair is not a round-trip at the empty set:
encoding the empty overlay set yields the empty string, decoding the
empty string yields the singleton set containing the empty string (the
empty string does not start with a quote, so it is taken as a bare
one-element value), and that set differs from the empty set. -/
theorem c10_empty_set_not_roundtrip :
    encodeOverlaySet (∅ : Finset String) = "" ∧
    decodeValue "" = some {""} ∧
    decodeValue (encodeOverlaySet (∅ : Finset String)) ≠ some (∅ : Finset String) := by
  have he : encodeOverlaySet (∅ : Finset String) = "" := by
    simp [encodeOverlaySet, Finset.sort_empty, joinComma]
  refine ⟨he, by decide, ?_⟩
  rw [he]
  decide

/-- C3: write-skip invariant — for control enable or disable, whenever
adding (enable) or removing (disable) the target token to the effective
current set yields a set equal to the current set, `control_uart` makes
no remote write call (its trace holds only the two reads) and reports
unchanged. -/
theorem c3_write_skip_invariant (control uuid : String) (dv av : List ConfigVariable)
    (cur : Finset String)
    (hc : control = "enable" ∨ control = "disable")
    (hcur : effective_current dv av = Except.ok (some cur))
    (hskip : new_overlay control cur = cur) :
    control_uart control uuid dv av =
      ([RemoteCall.getAll Scope.device, RemoteCall.getAll Scope.application],
        Outcome.unchanged) :=
  control_uart_skip control uuid dv av cur hc hcur hskip

/-- C3 witness: the invariant applied at a concrete input — enable when
the device-level variable already contains the target token. -/
theorem c3_write_skip_invariant_witness :
    control_uart "enable" "uuid2"
        [ConfigVariable.mk "BALENA_HOST_CONFIG_dtoverlay" 7 "disable-bt"] [] =
      ([RemoteCall.getAll Scope.device, RemoteCall.getAll Scope.application],
        Outcome.unchanged) :=
  c3_write_skip_invariant "enable" "uuid2"
    [ConfigVariable.mk "BALENA_HOST_CONFIG_dtoverlay" 7 "disable-bt"] []
    {"disable-bt"} (Or.inl rfl) (by decide) (by decide)

/-- C7: decode/encode round-trip — for every non-empty set of
alphanumeric-hyphen tokens, decoding the encoded form (double-quoted,
comma-separated tokens, no brackets) yields the same set. -/
theorem c7_decode_encode_roundtrip (S : Finset String) (hne : S.Nonempty)
    (hS : ∀ t ∈ S, goodToken t) :
    decodeValue (encodeOverlaySet S) = some S :=
  decode_encode_of_good S hne hS

/-- C7 witness: the round-trip at a concrete two-token set. -/
theorem c7_decode_encode_roundtrip_witness :
    decodeValue (encodeOverlaySet {"disable-bt", "other-1"}) =
      some {"disable-bt", "other-1"} :=
  c7_decode_encode_roundtrip {"disable-bt", "other-1"} (by decide) (by decide)

/-- C8: enable is idempotent across two invocations — after a first
enable stored the encoded set `S ∪ {UART_OVERLAY}` in the device-level
variable, a second enable invocation reading that value back computes a
desired set equal to the current set and issues no write (the write-skip
fires). -/
theorem c8_enable_idempotent (S : Finset String) (hne : S.Nonempty)
    (hS : ∀ t ∈ S, goodToken t) (vid : Nat) (uuid : String) :
    control_uart "enable" uuid
        [ConfigVariable.mk "BALENA_HOST_CONFIG_dtoverlay" vid
          (encodeOverlaySet (S ∪ {UART_OVERLAY}))] [] =
      ([RemoteCall.getAll Scope.device, RemoteCall.getAll Scope.application],
        Outcome.unchanged) := by
  have hgood : ∀ t ∈ S ∪ {UART_OVERLAY}, goodToken t := by
    intro t ht
    rcases Finset.mem_union.mp ht with h | h
    · exact hS t h
    · rw [Finset.mem_singleton.mp h]
      decide
  have hne2 : (S ∪ {UART_OVERLAY}).Nonempty :=
    ⟨UART_OVERLAY, Finset.mem_union_right S (Finset.mem_singleton_self _)⟩
  have hdec := decode_encode_of_good (S ∪ {UART_OVERLAY}) hne2 hgood
  have hfind : find_dtoverlay_config
      [ConfigVariable.mk "BALENA_HOST_CONFIG_dtoverlay" vid
        (encodeOverlaySet (S ∪ {UART_OVERLAY}))] =
      Except.ok (some (S ∪ {UART_OVERLAY}), some (toString vid)) := by
    simp [find_dtoverlay_config, findAux, dtOverlayNames, hdec]
  have hcur : effective_current
      [ConfigVariable.mk "BALENA_HOST_CONFIG_dtoverlay" vid
        (encodeOverlaySet (S ∪ {UART_OVERLAY}))] [] =
      Except.ok (some (S ∪ {UART_OVERLAY})) := by
    rw [effective_current, hfind]
    rfl
  have hskip : new_overlay "enable" (S ∪ {UART_OVERLAY}) = S ∪ {UART_OVERLAY} := by
    rw [new_overlay, if_pos (by decide), Finset.union_assoc, Finset.union_self]
  exact control_uart_skip "enable" uuid _ [] (S ∪ {UART_OVERLAY}) (Or.inl rfl) hcur hskip

/-- C8 witness: the second-enable skip at a concrete one-token set. -/
theorem c8_enable_idempotent_witness :
    control_uart "enable" "uuid3"
        [ConfigVariable.mk "BALENA_HOST_CONFIG_dtoverlay" 5
          (encodeOverlaySet ({"other-2"} ∪ {UART_OVERLAY}))] [] =
      ([RemoteCall.getAll Scope.device, RemoteCall.getAll Scope.application],
        Outcome.unchanged) :=
  c8_enable_idempotent {"other-2"} (by decide) (by decide) 5 "uuid3"

theorem control_uart_shape (control uuid : String) (dv av : List ConfigVariable) :
    (control ∉ ["enable", "disable"] ∧
      control_uart control uuid dv av = ([], Outcome.invalidControl)) ∨
    control_uart control uuid dv av =
      ([RemoteCall.getAll Scope.device], Outcome.decodeError) ∨
    control_uart control uuid dv av =
      ([RemoteCall.getAll Scope.device, RemoteCall.getAll Scope.application],
        Outcome.decodeError) ∨
    control_uart control uuid dv av =
      ([RemoteCall.getAll Scope.device, RemoteCall.getAll Scope.application],
        Outcome.typeError) ∨
    control_uart control uuid dv av =
      ([RemoteCall.getAll Scope.device, RemoteCall.getAll Scope.application],
        Outcome.unchanged) ∨
    (∃ (d : Finset String) (i : Option String) (enc : String),
      find_dtoverlay_config dv = Except.ok (some d, i) ∧
      control_uart control uuid dv av =
        ([RemoteCall.getAll Scope.device, RemoteCall.getAll Scope.application,
          RemoteCall.update Scope.device i enc], Outcome.done)) ∨
    (∃ enc : String,
      control_uart control uuid dv av =
        ([RemoteCall.getAll Scope.device, RemoteCall.getAll Scope.application,
          RemoteCall.create Scope.device uuid "BALENA_HOST_CONFIG_dtoverlay" enc],
          Outcome.done)) := by
  by_cases hc : control ∈ ["enable", "disable"]
  · cases hd : find_dtoverlay_config dv with
    | error e =>
      refine Or.inr (Or.inl ?_)
      rw [control_uart, if_neg (not_not_intro hc), hd]
    | ok p =>
      obtain ⟨d, i⟩ := p
      cases ha : find_dtoverlay_config av with
      | error e =>
        refine Or.inr (Or.inr (Or.inl ?_))
        rw [control_uart, if_neg (not_not_intro hc), hd]
        simp only [ha]
      | ok q =>
        obtain ⟨a, j⟩ := q
        cases d with
        | none =>
          cases a with
          | none =>
            refine Or.inr (Or.inr (Or.inr (Or.inl ?_)))
            rw [control_uart, if_neg (not_not_intro hc), hd]
            simp only [ha]
            rfl
          | some x =>
            by_cases hs : new_overlay control x = x
            · refine Or.inr (Or.inr (Or.inr (Or.inr (Or.inl ?_))))
              rw [control_uart, if_neg (not_not_intro hc), hd]
              simp only [ha]
              simp [hs]
            · refine Or.inr (Or.inr (Or.inr (Or.inr (Or.inr (Or.inr
                ⟨encodeOverlaySet (new_overlay control x), ?_⟩)))))
              rw [control_uart, if_neg (not_not_intro hc), hd]
              simp only [ha]
              simp [hs]
        | some x =>
          by_cases hs : new_overlay control x = x
          · refine Or.inr (Or.inr (Or.inr (Or.inr (Or.inl ?_))))
            rw [control_uart, if_neg (not_not_intro hc), hd]
            simp only [ha]
            simp [hs]
          · refine Or.inr (Or.inr (Or.inr (Or.inr (Or.inr (Or.inl
              ⟨x, i, encodeOverlaySet (new_overlay control x), rfl, ?_⟩)))))
            rw [control_uart, if_neg (not_not_intro hc), hd]
            simp only [ha]
            simp [hs]
  · exact Or.inl ⟨hc, by rw [control_uart, if_pos hc]⟩

/-- C4: the reconciler never writes to application-level configuration —
every update or create call in the remote-call trace targets the
device-level object — and when both a device-level and an
application-level overlay set are present, the device-level set is the
effective current set. -/
theorem c4_device_scope_only (control uuid : String) (dv av : List ConfigVariable) :
    writesOnlyDevice (control_uart control uuid dv av).1 = true ∧
    (∀ (d a : Finset String) (i j : Option String),
      find_dtoverlay_config dv = Except.ok (some d, i) →
      find_dtoverlay_config av = Except.ok (some a, j) →
      effective_current dv av = Except.ok (some d)) := by
  constructor
  · rcases control_uart_shape control uuid dv av with
      ⟨_, h⟩ | h | h | h | h | ⟨d, i, enc, _, h⟩ | ⟨enc, h⟩ <;>
      rw [h] <;> simp [writesOnlyDevice]
  · intro d a i j hd ha
    rw [effective_current, hd]
    simp [ha]

/-- C4 witness: at a concrete input with both scopes populated and
different, the trace only writes device scope and the effective current
set is the device one. -/
theorem c4_device_scope_only_witness :
    writesOnlyDevice (control_uart "enable" "uuid5"
        [ConfigVariable.mk "BALENA_HOST_CONFIG_dtoverlay" 7 "disable-bt"]
        [ConfigVariable.mk "RESIN_HOST_CONFIG_dtoverlay" 3 "vc4-kms-v3d"]).1 = true ∧
    effective_current
        [ConfigVariable.mk "BALENA_HOST_CONFIG_dtoverlay" 7 "disable-bt"]
        [ConfigVariable.mk "RESIN_HOST_CONFIG_dtoverlay" 3 "vc4-kms-v3d"] =
      Except.ok (some {"disable-bt"}) :=
  ⟨(c4_device_scope_only "enable" "uuid5"
      [ConfigVariable.mk "BALENA_HOST_CONFIG_dtoverlay" 7 "disable-bt"]
      [ConfigVariable.mk "RESIN_HOST_CONFIG_dtoverlay" 3 "vc4-kms-v3d"]).1,
    (c4_device_scope_only "enable" "uuid5"
      [ConfigVariable.mk "BALENA_HOST_CONFIG_dtoverlay" 7 "disable-bt"]
      [ConfigVariable.mk "RESIN_HOST_CONFIG_dtoverlay" 3 "vc4-kms-v3d"]).2
      {"disable-bt"} {"vc4-kms-v3d"} (some "7") (some "3") (by decide) (by decide)⟩

/-- C5: scan-order precedence — for a variable sequence with two or more
entries whose name is a recognized dt-overlay alias (all of which
decode), `find_dtoverlay_config` returns the decoded value and
stringified id of the last matching entry, and any device-level update
issued by `control_uart` on that sequence uses that id. -/
theorem c5_last_match_wins (dv : List ConfigVariable) (m : ConfigVariable) (s : Finset String)
    (hlen : 2 ≤ (dv.filter (fun v => decide (v.name ∈ dtOverlayNames))).length)
    (hlast : (dv.filter (fun v => decide (v.name ∈ dtOverlayNames))).getLast? = some m)
    (hdec : ∀ v ∈ dv, v.name ∈ dtOverlayNames → (decodeValue v.value).isSome)
    (hm : decodeValue m.value = some s) :
    find_dtoverlay_config dv = Except.ok (some s, some (toString m.id)) ∧
    (∀ (control uuid : String) (av : List ConfigVariable) (i : Option String) (val : String),
      RemoteCall.update Scope.device i val ∈ (control_uart control uuid dv av).1 →
      i = some (toString m.id)) := by
  have hfind : find_dtoverlay_config dv = Except.ok (some s, some (toString m.id)) :=
    findAux_last dv m s hlast hdec hm (none, none)
  refine ⟨hfind, ?_⟩
  intro control uuid av i val hmem
  rcases control_uart_shape control uuid dv av with
    ⟨_, h⟩ | h | h | h | h | ⟨d, i2, enc, hd2, h⟩ | ⟨enc, h⟩
  · rw [h] at hmem; simp at hmem
  · rw [h] at hmem; simp at hmem
  · rw [h] at hmem; simp at hmem
  · rw [h] at hmem; simp at hmem
  · rw [h] at hmem; simp at hmem
  · rw [h] at hmem
    rw [hfind] at hd2
    simp only [Except.ok.injEq, Prod.mk.injEq, Option.some_inj] at hd2
    simp at hmem
    rw [hmem.1, ← hd2.2]
  · rw [h] at hmem; simp at hmem

/-- C5 witness: two matching device-level variables with different ids
and values; the later entry determines the returned value and id. -/
theorem c5_last_match_wins_witness :
    find_dtoverlay_config
        [ConfigVariable.mk "BALENA_HOST_CONFIG_dtoverlay" 7 "\"alpha\"",
         ConfigVariable.mk "RESIN_HOST_CONFIG_dtoverlay" 9 "\"beta\""] =
      Except.ok (some {"beta"}, some "9") :=
  (c5_last_match_wins
    [ConfigVariable.mk "BALENA_HOST_CONFIG_dtoverlay" 7 "\"alpha\"",
     ConfigVariable.mk "RESIN_HOST_CONFIG_dtoverlay" 9 "\"beta\""]
    (ConfigVariable.mk "RESIN_HOST_CONFIG_dtoverlay" 9 "\"beta\"")
    {"beta"} (by decide) (by decide) (by decide) (by decide)).1

/-- C6: the reconciler ends with the invalid-control error exactly when
the control argument is neither "enable" nor "disable", and in that case
it does so before any remote call: the remote-call trace is empty, so the
remote configuration store is untouched. -/
theorem c6_invalid_control_atomic (control uuid : String) (dv av : List ConfigVariable) :
    ((control_uart control uuid dv av).2 = Outcome.invalidControl ↔
      control ∉ ["enable", "disable"]) ∧
    (control ∉ ["enable", "disable"] →
      control_uart control uuid dv av = ([], Outcome.invalidControl)) := by
  have hout : control ∉ ["enable", "disable"] →
      control_uart control uuid dv av = ([], Outcome.invalidControl) := by
    intro h
    rw [control_uart, if_pos h]
  refine ⟨⟨?_, fun h => by rw [hout h]⟩, hout⟩
  intro hinv
  by_contra hc
  rcases control_uart_shape control uuid dv av with
    ⟨hn, _⟩ | h | h | h | h | ⟨d, i, enc, _, h⟩ | ⟨enc, h⟩
  · exact hn hc
  all_goals rw [h] at hinv; cases hinv

/-- C6 witness: at an unrecognized control value the reconciler reports
the invalid-control error with an empty remote-call trace. -/
theorem c6_invalid_control_atomic_witness :
    ("bogus" : String) ∉ ["enable", "disable"] ∧
    control_uart "bogus" "uuid6" [] [] = ([], Outcome.invalidControl) :=
  ⟨by decide,
    (c6_invalid_control_atomic "bogus" "uuid6" [] []).2 (by decide)⟩

/-- C9: for control = disable with an existing device-level override
whose decoded set is the target token together with "other", the
reconciler issues exactly one write — an update of that variable's id —
whose encoded value contains only the token "other". -/
theorem c9_disable_issues_update (v : String) (vid : Nat) (uuid : String)
    (hv : decodeValue v = some {UART_OVERLAY, "other"}) :
    control_uart "disable" uuid
        [ConfigVariable.mk "BALENA_HOST_CONFIG_dtoverlay" vid v] [] =
      ([RemoteCall.getAll Scope.device, RemoteCall.getAll Scope.application,
        RemoteCall.update Scope.device (some (toString vid)) "\"other\""],
        Outcome.done) := by
  have hfind : find_dtoverlay_config
      [ConfigVariable.mk "BALENA_HOST_CONFIG_dtoverlay" vid v] =
      Except.ok (some {UART_OVERLAY, "other"}, some (toString vid)) := by
    simp [find_dtoverlay_config, findAux, dtOverlayNames, hv]
  have hnew : new_overlay "disable" {UART_OVERLAY, "other"} = {"other"} := by
    rw [new_overlay, if_neg (by decide)]
    decide
  have hdiff : ({"other"} : Finset String) ≠ {UART_OVERLAY, "other"} := by decide
  have henc : encodeOverlaySet ({"other"} : Finset String) = "\"other\"" := by
    rw [encodeOverlaySet, Finset.sort_singleton]
    decide
  have hfa : find_dtoverlay_config ([] : List ConfigVariable) =
      Except.ok (none, none) := rfl
  rw [control_uart,
    if_neg (not_not_intro (by simp : ("disable" : String) ∈ ["enable", "disable"])),
    hfind]
  simp only [hfa]
  simp [hnew, hdiff, henc]

/-- C9 witness: the update at a concrete device variable holding the
encoded two-token set. -/
theorem c9_disable_issues_update_witness :
    control_uart "disable" "uuid7"
        [ConfigVariable.mk "BALENA_HOST_CONFIG_dtoverlay" 7 "\"disable-bt\",\"other\""] [] =
      ([RemoteCall.getAll Scope.device, RemoteCall.getAll Scope.application,
        RemoteCall.update Scope.device (some (toString 7)) "\"other\""],
        Outcome.done) :=
  c9_disable_issues_update "\"disable-bt\",\"other\"" 7 "uuid7" (by decide)
